import Mathlib

/-!
Verification of the transaction-construction orchestration layer of a
multi-protocol wallet SDK (`transaction/controller.js` and the Uniswap
controller).  Pure Lean embeddings of the controller logic are given below;
remote HTTP collaborators (wallet-info fetch, fee quotation, transaction
lookup) are modelled as explicit arguments carrying the data the remote call
would return, and the per-protocol signing primitives (which live outside the
orchestration layer) are modelled as opaque function arguments.
-/

namespace Cryptum

/-- Blockchain protocol tags used by the controller dispatch. -/
inductive Protocol where
  | STELLAR | RIPPLE | CELO | ETHEREUM | BSC | AVAXCCHAIN
  | BITCOIN | HATHOR | CARDANO | SOLANA | POLYGON
deriving DecidableEq, Repr

/-- Transaction type tags (`TransactionType` in the entity module). -/
inductive TransactionType where
  | TRANSFER
  | CALL_CONTRACT_METHOD
  | DEPLOY_CONTRACT
  | CHANGE_TRUST
  | HATHOR_TOKEN_MELT
  | HATHOR_TOKEN_MINT
  | SOLANA_TOKEN_BURN
deriving DecidableEq, Repr

/-- Wallet credentials as used by the account-chain flows. -/
structure Wallet where
  address : String
  privateKey : String
deriving DecidableEq, Repr

/-- Result of the remote `getWalletInfo` fetch: nonce for account chains,
sequence and current ledger index for ledger-sequence chains. -/
structure WalletInfo where
  nonce : Nat
  sequence : Nat
  ledgerCurrentIndex : Nat
deriving DecidableEq, Repr

/-- The gas-shaped fee quotation returned by the remote fee service for
account chains (`getFee` response). -/
structure FeeQuote where
  gas : Nat
  gasPrice : Nat
deriving DecidableEq, Repr

/-- Caller-supplied fee override object.  A field holds `none` when the
caller did not supply it (JS `undefined`). -/
structure FeeOverride where
  gas : Option Nat
  gasPrice : Option Nat
deriving DecidableEq, Repr

/-- JS truthiness of an optional number: `undefined` and `0` are falsy. -/
def jsNumTruthy : Option Nat → Bool
  | none => false
  | some n => n != 0

/-- JS truthiness of an optional string: `undefined` and the empty string
are falsy. -/
def jsStrTruthy : Option String → Bool
  | none => false
  | some s => s != ""

/-- `GenericException(message, errorType)`; the one-argument form leaves
`errorType` undefined. -/
structure GenericException where
  message : String
  errorType : Option String
deriving DecidableEq, Repr

/-- `HathorException(message)`. -/
structure HathorException where
  message : String
deriving DecidableEq, Repr

/-- The terminal envelope `new SignedTransaction({ signedTx, protocol, type })`. -/
structure SignedTransaction where
  signedTx : String
  protocol : Protocol
  type : TransactionType
deriving DecidableEq, Repr

/-! ## Fee-info orchestration (`_getFeeInfo`)

`_getFeeInfo` fetches wallet info and the fee quote concurrently, then
patches the quote field by field:

```js
if (fee && fee.gas) networkFee.gas = fee && fee.gas
if (fee && fee.gasPrice) networkFee.gasPrice = fee && fee.gasPrice
```
-/

/-- The network fee produced by `_getFeeInfo` from the remote quote and the
caller-supplied override, mirroring the two truthiness-guarded mutations. -/
def getFeeInfoNetworkFee (fee : Option FeeOverride) (quoted : FeeQuote) : FeeQuote :=
  let nf1 :=
    if jsNumTruthy (fee.bind FeeOverride.gas) then
      { quoted with gas := (fee.bind FeeOverride.gas).getD 0 }
    else quoted
  if jsNumTruthy (fee.bind FeeOverride.gasPrice) then
    { nf1 with gasPrice := (fee.bind FeeOverride.gasPrice).getD 0 }
  else nf1

/-- Argument record handed to the external `buildEthereumTransferTransaction`
signing primitive by `createEthereumTransferTransaction`. -/
structure EthereumTransferBuildParams where
  fromPrivateKey : String
  tokenSymbol : String
  amount : String
  destination : String
  fee : FeeQuote
  nonce : Nat
  testnet : Bool
  contractAddress : Option String
deriving DecidableEq, Repr

/-- `createEthereumTransferTransaction` up to the external signing call: the
resolved wallet info and fee quote stand for the results of the two remote
fetches issued by `_getFeeInfo`.  The record returned is exactly the argument
record passed to the builder, so its `fee` field is the fee carried into the
built transaction. -/
def createEthereumTransferTransaction (wallet : Wallet) (tokenSymbol amount destination : String)
    (contractAddress : Option String) (fee : Option FeeOverride) (quoted : FeeQuote)
    (info : WalletInfo) (testnet : Bool) : EthereumTransferBuildParams :=
  { fromPrivateKey := wallet.privateKey
    tokenSymbol := tokenSymbol
    amount := amount
    destination := destination
    fee := getFeeInfoNetworkFee fee quoted
    nonce := info.nonce
    testnet := testnet
    contractAddress := contractAddress }

/-! ## Ripple constructions (`createRippleTransferTransaction`,
`createRippleTrustlineTransaction`)

Both fetch wallet info, resolve the network fee (caller value if truthy,
otherwise the remote estimate) and hand the builder
`maxLedgerVersion: info.ledgerCurrentIndex + 10`. -/

/-- `let networkFee = fee; if (!networkFee) networkFee = estimateValue`. -/
def resolveFlatFee (fee : Option String) (estimateValue : String) : String :=
  if jsStrTruthy fee then fee.getD "" else estimateValue

/-- Argument record handed to the external `buildRippleTransferTransaction`. -/
structure RippleTransferBuildParams where
  fromAddress : String
  fromPrivateKey : String
  assetSymbol : String
  issuer : Option String
  amount : String
  destination : String
  memo : Option String
  fee : String
  sequence : Nat
  maxLedgerVersion : Nat
  testnet : Bool
deriving DecidableEq, Repr

/-- Argument record handed to the external `buildRippleTrustlineTransaction`. -/
structure RippleTrustlineBuildParams where
  fromAddress : String
  fromPrivateKey : String
  assetSymbol : String
  issuer : Option String
  limit : String
  memo : Option String
  fee : String
  sequence : Nat
  maxLedgerVersion : Nat
  testnet : Bool
deriving DecidableEq, Repr

/-- `createRippleTransferTransaction` up to the external signing call; `info`
stands for the result of the per-call `getWalletInfo` fetch and
`estimateValue` for the remote fee estimate. -/
def createRippleTransferTransaction (wallet : Wallet) (assetSymbol : String)
    (issuer : Option String) (amount destination : String) (memo : Option String)
    (fee : Option String) (estimateValue : String) (info : WalletInfo)
    (testnet : Bool) : RippleTransferBuildParams :=
  { fromAddress := wallet.address
    fromPrivateKey := wallet.privateKey
    assetSymbol := assetSymbol
    issuer := issuer
    amount := amount
    destination := destination
    memo := memo
    fee := resolveFlatFee fee estimateValue
    sequence := info.sequence
    maxLedgerVersion := info.ledgerCurrentIndex + 10
    testnet := testnet }

/-- `createRippleTrustlineTransaction` up to the external signing call. -/
def createRippleTrustlineTransaction (wallet : Wallet) (assetSymbol : String)
    (issuer : Option String) (limit : String) (memo : Option String)
    (fee : Option String) (estimateValue : String) (info : WalletInfo)
    (testnet : Bool) : RippleTrustlineBuildParams :=
  { fromAddress := wallet.address
    fromPrivateKey := wallet.privateKey
    assetSymbol := assetSymbol
    issuer := issuer
    limit := limit
    memo := memo
    fee := resolveFlatFee fee estimateValue
    sequence := info.sequence
    maxLedgerVersion := info.ledgerCurrentIndex + 10
    testnet := testnet }

/-! ## Solana token burn / mint envelopes

Both controllers fetch the latest block hash, call the external signing
primitive (`buildSolanaTokenBurnTransaction` resp. `mintSolanaToken`, whose
result is the `builtTx` argument below) and wrap the result. -/

/-- `createSolanaTokenBurnTransaction` envelope assembly. -/
def createSolanaTokenBurnTransaction (builtTx : String) : SignedTransaction :=
  { signedTx := builtTx
    protocol := Protocol.SOLANA
    type := TransactionType.SOLANA_TOKEN_BURN }

/-- `createSolanaTokenMintTransaction` envelope assembly. -/
def createSolanaTokenMintTransaction (builtTx : String) : SignedTransaction :=
  { signedTx := builtTx
    protocol := Protocol.SOLANA
    type := TransactionType.SOLANA_TOKEN_BURN }

/-! ## Unspent-output discovery (`getUTXOs`)

```js
return Array.isArray(response.data) && response.data.map((utxo) => new UTXO(utxo))
```
-/

/-- An unspent output as returned by the chain-data collaborator
(`UTXOResponse` entity fields used by the flows below). -/
structure UTXO where
  txHash : String
  index : Nat
  token : String
  value : Nat
deriving DecidableEq, Repr

/-- Remote response body of the unspent-output fetch: either a JSON array of
unspent outputs or any non-array value (described opaquely by a string). -/
inductive UTXOsResponseData where
  | arr (utxos : List UTXO)
  | nonArray (value : String)
deriving DecidableEq, Repr

/-- What `getUTXOs` evaluates to: a list of `UTXO` entities, or the JS
boolean `false` produced by the short-circuiting `&&`. -/
inductive GetUTXOsResult where
  | utxoList (l : List UTXO)
  | jsFalse
deriving DecidableEq, Repr

/-- The result mapping of `getUTXOs`: `new UTXO(utxo)` copies the response
fields, so the array branch is the identity on each element. -/
def getUTXOs (responseData : UTXOsResponseData) : GetUTXOsResult :=
  match responseData with
  | .arr utxos => .utxoList (utxos.map fun u => u)
  | .nonArray _ => .jsFalse

/-! ## Celo transfer shape decision (`createCeloTransferTransaction`)

For `tokenSymbol === 'CELO'` the presence (JS truthiness) of `memo` decides
between a `transferWithComment` contract call and a plain transfer; for other
tokens the transfer is always a contract call. -/

/-- The intent shape computed by `createCeloTransferTransaction` before the
fee fetch: these fields are sent to `_getFeeInfo` and `contractAddress` is
also carried into the builder call. -/
structure CeloTransferShape where
  type : TransactionType
  method : Option String
  params : Option (List String)
  value : Option String
  contractAddress : Option String
  contractAbi : Option String
deriving DecidableEq, Repr

/-- ABI constant names stand for the imported ABI objects. -/
def TRANSFER_METHOD_ABI : String := "TRANSFER_METHOD_ABI"

/-- ABI constant name for the comment-carrying transfer method. -/
def TRANSFER_COMMENT_METHOD_ABI : String := "TRANSFER_COMMENT_METHOD_ABI"

/-- The `type/method/params/value/contractAddress/contractAbi` computation of
`createCeloTransferTransaction`.  `toWei` and `getTokenAddress` stand for the
external unit conversion and the well-known token address table
(`getTokenAddress(Protocol.CELO, tokenSymbol, testnet)`). -/
def celoTransferShape (tokenSymbol : String) (memo : Option String)
    (destination amount : String) (testnet : Bool)
    (contractAddressIn : Option String) (toWei : String → String)
    (getTokenAddress : String → Bool → String) : CeloTransferShape :=
  let amountWei := toWei amount
  if tokenSymbol = "CELO" then
    { type := if jsStrTruthy memo then .CALL_CONTRACT_METHOD else .TRANSFER
      method := if jsStrTruthy memo then some "transferWithComment" else none
      params := if jsStrTruthy memo then some [destination, amountWei, memo.getD ""] else none
      value := if jsStrTruthy memo then none else some amount
      contractAddress := if jsStrTruthy memo then some (getTokenAddress tokenSymbol testnet) else none
      contractAbi := if jsStrTruthy memo then some TRANSFER_COMMENT_METHOD_ABI else none }
  else
    { type := .CALL_CONTRACT_METHOD
      method := if jsStrTruthy memo then some "transferWithComment" else some "transfer"
      params := if jsStrTruthy memo then some [destination, amountWei, memo.getD ""]
                else some [destination, amountWei]
      value := none
      contractAddress :=
        if tokenSymbol = "cUSD" ∨ tokenSymbol = "cEUR" then some (getTokenAddress tokenSymbol testnet)
        else contractAddressIn
      contractAbi := some (if jsStrTruthy memo then TRANSFER_COMMENT_METHOD_ABI else TRANSFER_METHOD_ABI) }

/-! ## Smart-contract deployment (`createSmartContractDeployTransaction`)

The construction validates the input, runs `_getFeeInfo` (wallet-info fetch
and fee fetch, issued concurrently) and then dispatches on the protocol tag,
throwing `GenericException('Invalid protocol', 'InvalidTypeException')` for
protocols outside `{CELO, ETHEREUM, BSC, AVAXCCHAIN}`. -/

/-- Remote calls issued by the deploy construction. -/
inductive NetCall where
  | getWalletInfo
  | getFee
deriving DecidableEq, Repr

/-- The closed protocol set for which smart-contract deployment is declared. -/
def deployProtocols : List Protocol :=
  [Protocol.CELO, Protocol.ETHEREUM, Protocol.BSC, Protocol.AVAXCCHAIN]

/-- Modelled from the spec: `validateSmartContractDeployTransactionParams`
(`services/validations`, not part of the sources here) — per §4.3 a
smart-contract-deploy intent for a protocol outside the declared closed set
"fails fast before any network call", so the validator rejects such
protocols before the wallet-info and fee fetches are issued. -/
def validateSmartContractDeployTransactionParams (protocol : Protocol) : Bool :=
  deployProtocols.contains protocol

/-- Argument record handed to the external deploy builders
(`buildCeloSmartContractDeployTransaction` /
`buildEthereumSmartContractDeployTransaction`). -/
structure DeployBuildParams where
  source : Option String
  contractName : Option String
  fromPrivateKey : String
  nonce : Nat
  params : List String
  fee : FeeQuote
  feeCurrency : Option String
  testnet : Bool
deriving DecidableEq, Repr

/-- `createSmartContractDeployTransaction`: the returned list records the
remote calls issued before the construction finished (empty when validation
rejects the input), paired with the outcome.  `buildCelo` and `buildEth`
stand for the external signing primitives, and `quoted`/`info` for the data
the two remote fetches return when issued. -/
def createSmartContractDeployTransaction (protocol : Protocol) (wallet : Wallet)
    (source contractName : Option String) (params : List String)
    (fee : Option FeeOverride) (feeCurrency : Option String) (testnet : Bool)
    (quoted : FeeQuote) (info : WalletInfo)
    (buildCelo : DeployBuildParams → String)
    (buildEth : DeployBuildParams → Protocol → String) :
    List NetCall × Except GenericException SignedTransaction :=
  if validateSmartContractDeployTransactionParams protocol = false then
    ([], .error { message := "Invalid protocol", errorType := some "InvalidTypeException" })
  else
    let calls := [NetCall.getWalletInfo, NetCall.getFee]
    let networkFee := getFeeInfoNetworkFee fee quoted
    let transactionOptions : DeployBuildParams :=
      { source := source
        contractName := contractName
        fromPrivateKey := wallet.privateKey
        nonce := info.nonce
        params := params
        fee := networkFee
        feeCurrency := feeCurrency
        testnet := testnet }
    if protocol = Protocol.CELO then
      (calls, .ok { signedTx := buildCelo transactionOptions
                    protocol := protocol
                    type := TransactionType.DEPLOY_CONTRACT })
    else if protocol = Protocol.ETHEREUM ∨ protocol = Protocol.BSC ∨
        protocol = Protocol.AVAXCCHAIN then
      (calls, .ok { signedTx := buildEth transactionOptions protocol
                    protocol := protocol
                    type := TransactionType.DEPLOY_CONTRACT })
    else
      (calls, .error { message := "Invalid protocol", errorType := some "InvalidTypeException" })

/-! ## Bitcoin transfer with caller-supplied inputs
(`createBitcoinTransferTransaction`, explicit-inputs branch)

```js
for (let i = 0; i < inputs.length; ++i) {
  const tx = await this.getTransactionByHash({ hash: inputs[i].txHash, protocol })
  if (!tx.vout[inputs[i].index]) {
    throw new GenericException(`Invalid UTXO hash ...`, 'InvalidParams')
  }
  inputs[i].hex = tx.hex
  inputs[i].blockhash = tx.blockhash
}
```
-/

/-- A caller-supplied explicit input: reference to a prior output. -/
structure BitcoinInput where
  txHash : String
  index : Nat
deriving DecidableEq, Repr

/-- Raw transaction context returned by `getTransactionByHash` for Bitcoin:
hex encoding, anchoring block hash, and the output list (`vout`), whose
entries are opaque here (only existence at an index matters). -/
structure BitcoinRawTx where
  hex : String
  blockhash : String
  vout : List String
deriving DecidableEq, Repr

/-- An input enriched with the resolved transaction context. -/
structure ResolvedBitcoinInput where
  txHash : String
  index : Nat
  hex : String
  blockhash : String
deriving DecidableEq, Repr

/-- The per-input resolution loop: each input's transaction is fetched
(`getTx` stands for the remote lookup) and the input fails the whole call
with `GenericException(_, 'InvalidParams')` when its index is absent from the
resolved transaction's output list. -/
def resolveBitcoinInputs (getTx : String → BitcoinRawTx) :
    List BitcoinInput → Except GenericException (List ResolvedBitcoinInput)
  | [] => .ok []
  | i :: rest =>
    let tx := getTx i.txHash
    if i.index < tx.vout.length then
      match resolveBitcoinInputs getTx rest with
      | .ok resolved =>
        .ok ({ txHash := i.txHash, index := i.index, hex := tx.hex,
               blockhash := tx.blockhash } :: resolved)
      | .error e => .error e
    else
      .error { message := "Invalid UTXO hash " ++ i.txHash, errorType := some "InvalidParams" }

/-- `createBitcoinTransferTransaction` for caller-supplied explicit inputs:
input resolution, then fee resolution, then the external signing call
(`build` stands for `buildBitcoinTransferTransaction`); signing happens only
after every input resolved. -/
def createBitcoinTransferTransaction (getTx : String → BitcoinRawTx)
    (build : List ResolvedBitcoinInput → String)
    (inputs : List BitcoinInput) (fee : Option String) (estimateValue : String) :
    Except GenericException SignedTransaction :=
  match resolveBitcoinInputs getTx inputs with
  | .error e => .error e
  | .ok resolved =>
    let _networkFee := resolveFlatFee fee estimateValue
    .ok { signedTx := build resolved
          protocol := Protocol.BITCOIN
          type := TransactionType.TRANSFER }

/-! ## Hathor transfer from wallet (`createHathorTransferTransactionFromWallet`)

Discovers unspent outputs, fails with `GenericException('No available UTXOs')`
when the discovered list is empty, normalizes output tokens
(`'HTR'`/`null` become `'00'`), collects the target token set, and selects the
inputs whose token is targeted and which are not authority outputs. -/

/-- Per-output token tagging of a resolved Hathor transaction output
(`tx.tx.outputs[index]`). -/
structure HathorTxOutput where
  value : Nat
  token_data : Nat
deriving DecidableEq, Repr

/-- A caller-requested transfer output before token normalization (`token`
is `none` for JS `null`/`undefined`). -/
structure HathorOutputSpec where
  address : String
  amount : String
  token : Option String
deriving DecidableEq, Repr

/-- A transfer output after in-place token normalization. -/
structure HathorOutputNorm where
  address : String
  amount : String
  token : String
deriving DecidableEq, Repr

/-- `if (outputs[i].token === 'HTR' || outputs[i].token == null) outputs[i].token = '00'`. -/
def normalizeHathorToken : Option String → String
  | none => "00"
  | some t => if t = "HTR" then "00" else t

/-- A selected transfer input: the unspent output enriched with the wallet
private key (`{ ...utxos[i], privateKey }`). -/
structure HathorTransferInput where
  txHash : String
  index : Nat
  token : String
  value : Nat
  privateKey : String
deriving DecidableEq, Repr

/-- Argument record handed to the external `buildHathorTransferTransaction`. -/
structure HathorTransferBuildParams where
  inputs : List HathorTransferInput
  outputs : List HathorOutputNorm
  tokens : List String
  changeAddress : String
  testnet : Bool
deriving DecidableEq, Repr

/-- The transfer selection loop: an unspent output is selected when its token
is one of the transfer's target tokens and it is either the native asset
(`'00'`) or not an authority output (`token_data` outside `{0, 129}` in its
resolved transaction, fetched via `getOutput`). -/
def hathorTransferSelect (tokens : List String) (privateKey : String)
    (getOutput : String → Nat → HathorTxOutput) : List UTXO → List HathorTransferInput
  | [] => []
  | u :: rest =>
    let restSel := hathorTransferSelect tokens privateKey getOutput rest
    if tokens.contains u.token then
      let output := getOutput u.txHash u.index
      if u.token = "00" ∨ (u.token ≠ "00" ∧ ¬(output.token_data = 0 ∨ output.token_data = 129)) then
        { txHash := u.txHash, index := u.index, token := u.token, value := u.value,
          privateKey := privateKey } :: restSel
      else restSel
    else restSel

/-- `createHathorTransferTransactionFromWallet` up to the external signing
call; `utxos` stands for the discovered unspent-output list and `getOutput`
for the per-input remote transaction lookup. -/
def createHathorTransferTransactionFromWallet (wallet : Wallet) (utxos : List UTXO)
    (outputs : List HathorOutputSpec) (getOutput : String → Nat → HathorTxOutput)
    (testnet : Bool) : Except GenericException HathorTransferBuildParams :=
  if utxos.length = 0 then
    .error { message := "No available UTXOs", errorType := none }
  else
    let normOutputs := outputs.map fun o =>
      { address := o.address, amount := o.amount, token := normalizeHathorToken o.token }
    let tokens := ((normOutputs.map HathorOutputNorm.token).eraseDups).filter (fun t => t != "")
    .ok { inputs := hathorTransferSelect tokens wallet.privateKey getOutput utxos
          outputs := normOutputs
          tokens := tokens
          changeAddress := wallet.address
          testnet := testnet }

/-! ## Hathor token operation from wallet
(`createHathorTokenTransactionFromWallet`)

Filters the discovered outputs by token (target token only for a melt; native
asset or target token otherwise), fails with
`HathorException('No available UTXOs')` when the filtered list is empty, and
then walks the candidates once, accumulating ordinary value outputs while the
running sum is below the requested amount in HTR smallest units, and
additionally taking every matching authority output (`token_data === 129`
with value `2` for melt, value `1` otherwise). -/

/-- A selected token-operation input
(`{ txHash, index, privateKey }` as pushed by the loop). -/
structure HathorSelInput where
  txHash : String
  index : Nat
  privateKey : String
deriving DecidableEq, Repr

/-- The pre-selection filter over discovered unspent outputs. -/
def hathorTokenCandidates (type : TransactionType) (tokenUid : String)
    (utxos : List UTXO) : List UTXO :=
  if type = TransactionType.HATHOR_TOKEN_MELT then
    utxos.filter (fun u => u.token == tokenUid)
  else
    utxos.filter (fun u => u.token == "00" || u.token == tokenUid)

/-- One iteration of the token-operation selection loop over the state
`(inputSum, inputs)`. -/
def hathorTokenSelectStep (type : TransactionType) (amountHTRUnit : Nat)
    (privateKey : String) (getOutput : String → Nat → HathorTxOutput)
    (st : Nat × List HathorSelInput) (u : UTXO) : Nat × List HathorSelInput :=
  let output := getOutput u.txHash u.index
  if type = TransactionType.HATHOR_TOKEN_MELT then
    if ¬(output.token_data = 0 ∨ output.token_data = 129) then
      if st.1 < amountHTRUnit then
        (st.1 + output.value, st.2 ++ [{ txHash := u.txHash, index := u.index, privateKey := privateKey }])
      else st
    else if output.token_data = 129 ∧ output.value = 2 then
      (st.1, st.2 ++ [{ txHash := u.txHash, index := u.index, privateKey := privateKey }])
    else st
  else
    if output.token_data = 0 then
      if st.1 < amountHTRUnit then
        (st.1 + output.value, st.2 ++ [{ txHash := u.txHash, index := u.index, privateKey := privateKey }])
      else st
    else if output.token_data = 129 ∧ output.value = 1 then
      (st.1, st.2 ++ [{ txHash := u.txHash, index := u.index, privateKey := privateKey }])
    else st

/-- The token-operation selection loop over the candidate list. -/
def hathorTokenSelectLoop (type : TransactionType) (amountHTRUnit : Nat)
    (privateKey : String) (getOutput : String → Nat → HathorTxOutput) :
    List UTXO → Nat × List HathorSelInput → Nat × List HathorSelInput
  | [], st => st
  | u :: rest, st =>
    hathorTokenSelectLoop type amountHTRUnit privateKey getOutput rest
      (hathorTokenSelectStep type amountHTRUnit privateKey getOutput st u)

/-- Data handed to the external `buildHathorTokenTransaction` (the fields the
selection determines). -/
structure HathorTokenBuildParams where
  type : TransactionType
  inputs : List HathorSelInput
  tokenUid : String
  inputSum : Nat
deriving DecidableEq, Repr

/-- `createHathorTokenTransactionFromWallet` up to the external signing call.
`amountHTRUnit` is `toHTRUnit(amount).toNumber()`, the requested amount
converted to HTR smallest units by the external conversion; `utxos` stands
for the discovered unspent-output list and `getOutput` for the per-candidate
remote transaction lookup. -/
def createHathorTokenTransactionFromWallet (type : TransactionType) (tokenUid : String)
    (amountHTRUnit : Nat) (wallet : Wallet) (utxos : List UTXO)
    (getOutput : String → Nat → HathorTxOutput) :
    Except HathorException HathorTokenBuildParams :=
  let candidates := hathorTokenCandidates type tokenUid utxos
  if candidates.length = 0 then
    .error { message := "No available UTXOs" }
  else
    let sel := hathorTokenSelectLoop type amountHTRUnit wallet.privateKey getOutput candidates (0, [])
    .ok { type := type, inputs := sel.2, tokenUid := tokenUid, inputSum := sel.1 }

/-! ## Cardano multi-phase signing
(`createCardanoTransferTransactionFromWallet`,
`createCardanoTransferTransactionFromUTXO`)

After the payload request, each signing payload is signed with the key that
`keyAddressMapper` holds for the account identifier embedded in the payload;
a payload whose address has no mapper entry makes the JS property access
`keyAddressMapper[address].publicKey` throw, which aborts the construction. -/

/-- `account_identifier` of a signing payload. -/
structure AccountIdentifier where
  address : String
deriving DecidableEq, Repr

/-- A signing payload returned by the remote payload request. -/
structure SigningPayload where
  account_identifier : AccountIdentifier
  hex_bytes : String
deriving DecidableEq, Repr

/-- `public_key` object attached to each produced signature. -/
structure CardanoPublicKey where
  hex_bytes : String
  curve_type : String
deriving DecidableEq, Repr

/-- A produced signature as submitted to the combine step. -/
structure CardanoSignature where
  signing_payload : SigningPayload
  public_key : CardanoPublicKey
  signature_type : String
  hex_bytes : String
deriving DecidableEq, Repr

/-- JS `string.slice(a, b)`. -/
def jsSlice (s : String) (a b : Nat) : String :=
  ((s.toList.drop a).take (b - a)).asString

/-- The signature production of the from-wallet flow: the mapper holds a
single entry for `walletAddress`, the attached public key is
`spendingPrivateKey.slice(128, 192)` and the witness is made with the wallet
key (`makeVkeyWitness` stands for the external signing primitive applied to
the key material and the payload bytes).  A payload for any other address
fails the construction (undefined property access on the mapper). -/
def cardanoSignaturesFromWallet (walletAddress spendingPrivateKey : String)
    (makeVkeyWitness : String → String → String) :
    List SigningPayload → Except String (List CardanoSignature)
  | [] => .ok []
  | p :: rest =>
    if p.account_identifier.address = walletAddress then
      match cardanoSignaturesFromWallet walletAddress spendingPrivateKey makeVkeyWitness rest with
      | .ok sigs =>
        .ok ({ signing_payload := p
               public_key := { hex_bytes := jsSlice spendingPrivateKey 128 192
                               curve_type := "edwards25519" }
               signature_type := "ed25519"
               hex_bytes := makeVkeyWitness spendingPrivateKey p.hex_bytes } :: sigs)
      | .error e => .error e
    else
      .error "Cannot read properties of undefined"

/-- The signature production of the from-UTXO flow: `keyAddressMapper` maps
each input address to the private key supplied for it, and each payload is
signed with the key held for the address embedded in that payload; a payload
whose address is unknown fails the construction. -/
def cardanoSignaturesFromUTXO (keyAddressMapper : List (String × String))
    (makeVkeyWitness : String → String → String) :
    List SigningPayload → Except String (List CardanoSignature)
  | [] => .ok []
  | p :: rest =>
    match keyAddressMapper.lookup p.account_identifier.address with
    | some privateKey =>
      match cardanoSignaturesFromUTXO keyAddressMapper makeVkeyWitness rest with
      | .ok sigs =>
        .ok ({ signing_payload := p
               public_key := { hex_bytes := jsSlice privateKey 128 192
                               curve_type := "edwards25519" }
               signature_type := "ed25519"
               hex_bytes := makeVkeyWitness privateKey p.hex_bytes } :: sigs)
      | .error e => .error e
    | none =>
      .error "Cannot read properties of undefined"

/-! ## Theorems -/

/-- Claim C8 (confirmed): for every Ripple transfer and trustline
construction, the built transaction's validity-window upper bound equals the
ledger-current-index fetched for this call plus the fixed horizon 10
(`maxLedgerVersion = info.ledgerCurrentIndex + 10`), derived from the
per-call `getWalletInfo` result rather than stored chain state. -/
theorem ripple_maxLedgerVersion_eq_current_plus_ten (wallet : Wallet)
    (assetSymbol : String) (issuer : Option String)
    (amount destination limit : String) (memo : Option String)
    (fee : Option String) (estimateValue : String) (info : WalletInfo)
    (testnet : Bool) :
    (createRippleTransferTransaction wallet assetSymbol issuer amount destination
        memo fee estimateValue info testnet).maxLedgerVersion
      = info.ledgerCurrentIndex + 10 ∧
    (createRippleTrustlineTransaction wallet assetSymbol issuer limit memo fee
        estimateValue info testnet).maxLedgerVersion
      = info.ledgerCurrentIndex + 10 :=
  ⟨rfl, rfl⟩

/-- Claim C9 (confirmed): the Solana token mint construction returns an
envelope whose semantic type tag is `SOLANA_TOKEN_BURN`, the same tag the
token burn construction uses, so the envelope type does not distinguish a
mint from a burn. -/
theorem solana_mint_envelope_type_eq_burn (builtMint builtBurn : String) :
    (createSolanaTokenMintTransaction builtMint).type = TransactionType.SOLANA_TOKEN_BURN ∧
    (createSolanaTokenMintTransaction builtMint).type
      = (createSolanaTokenBurnTransaction builtBurn).type :=
  ⟨rfl, rfl⟩

/-- Claim C10 (confirmed): when the remote response body of the
unspent-output discovery is not an array, `getUTXOs` evaluates to the JS
boolean `false` rather than a list of `UTXO` values or a raised error, while
an array body yields the mapped `UTXO` list. -/
theorem getUTXOs_nonarray_returns_false (v : String) (l : List UTXO) :
    getUTXOs (UTXOsResponseData.nonArray v) = GetUTXOsResult.jsFalse ∧
    getUTXOs (UTXOsResponseData.arr l) = GetUTXOsResult.utxoList l := by
  refine ⟨rfl, ?_⟩
  simp [getUTXOs]

/-- Claim C3 (confirmed, validator modelled from the spec): a
smart-contract-deploy intent whose protocol lies outside
`{CELO, ETHEREUM, BSC, AVAXCCHAIN}` fails with the unsupported-protocol
error, and the recorded remote-call list is empty: the failure happens
before the wallet-info and fee fetches are issued. -/
theorem deploy_unsupported_protocol_fails_before_network (protocol : Protocol)
    (wallet : Wallet) (source contractName : Option String) (params : List String)
    (fee : Option FeeOverride) (feeCurrency : Option String) (testnet : Bool)
    (quoted : FeeQuote) (info : WalletInfo)
    (buildCelo : DeployBuildParams → String)
    (buildEth : DeployBuildParams → Protocol → String)
    (h : deployProtocols.contains protocol = false) :
    createSmartContractDeployTransaction protocol wallet source contractName params
        fee feeCurrency testnet quoted info buildCelo buildEth
      = ([], .error { message := "Invalid protocol", errorType := some "InvalidTypeException" }) := by
  unfold createSmartContractDeployTransaction validateSmartContractDeployTransactionParams
  rw [if_pos h]

/-- Witness for claim C3: the Solana protocol is outside the deploy set and
the construction fails with the unsupported-protocol error having issued no
remote call. -/
theorem deploy_unsupported_protocol_fails_before_network_witness :
    createSmartContractDeployTransaction Protocol.SOLANA ⟨"addr", "key"⟩ none none []
        none none false ⟨1, 1⟩ ⟨0, 0, 0⟩ (fun _ => "ct") (fun _ _ => "et")
      = ([], .error { message := "Invalid protocol", errorType := some "InvalidTypeException" }) :=
  deploy_unsupported_protocol_fails_before_network Protocol.SOLANA ⟨"addr", "key"⟩
    none none [] none none false ⟨1, 1⟩ ⟨0, 0, 0⟩ (fun _ => "ct") (fun _ _ => "et")
    (by decide)

/-- Claim C7 counterexample: a memo that is present but empty (`memo = ''`)
is treated by the truthiness test as no memo, so the CELO native transfer is
shaped as a plain value transfer (type `TRANSFER`, no method) even though a
memo was supplied — the claim's "with a memo the built transaction is a
contract call" fails at this input. -/
theorem celo_empty_memo_counterexample :
    (celoTransferShape "CELO" (some "") "dest" "1" false none (fun s => s)
        (fun _ _ => "tokenaddr")).type = TransactionType.TRANSFER ∧
    (celoTransferShape "CELO" (some "") "dest" "1" false none (fun s => s)
        (fun _ _ => "tokenaddr")).method = none ∧
    (some "" : Option String) ≠ none := by
  refine ⟨rfl, rfl, ?_⟩
  decide

/-- Claim C7 (corrected): for a CELO native-asset transfer the presence of a
non-empty memo decides the transaction shape: a non-empty memo yields a
contract call (`CALL_CONTRACT_METHOD`, method `transferWithComment` against
the well-known token contract address, params
`[destination, amount-in-wei, memo]`); an absent or empty memo yields a plain
value transfer (`TRANSFER`, no contract method, value equal to the amount). -/
theorem celo_memo_decides_shape (m destination amount : String) (testnet : Bool)
    (contractAddressIn : Option String) (toWei : String → String)
    (getTokenAddress : String → Bool → String) (hm : m ≠ "") :
    celoTransferShape "CELO" (some m) destination amount testnet contractAddressIn
        toWei getTokenAddress
      = { type := TransactionType.CALL_CONTRACT_METHOD
          method := some "transferWithComment"
          params := some [destination, toWei amount, m]
          value := none
          contractAddress := some (getTokenAddress "CELO" testnet)
          contractAbi := some TRANSFER_COMMENT_METHOD_ABI } ∧
    ∀ noMemo : Option String, noMemo = none ∨ noMemo = some "" →
      celoTransferShape "CELO" noMemo destination amount testnet contractAddressIn
          toWei getTokenAddress
        = { type := TransactionType.TRANSFER
            method := none
            params := none
            value := some amount
            contractAddress := none
            contractAbi := none } := by
  constructor
  · simp [celoTransferShape, jsStrTruthy, hm]
  · rintro noMemo (rfl | rfl) <;> rfl

/-- Witness for claim C7: a non-empty memo produces the contract-call shape
and an absent memo the plain transfer shape, at concrete inputs. -/
theorem celo_memo_decides_shape_witness :
    celoTransferShape "CELO" (some "hi") "dst" "2" false none (fun s => s ++ "w")
        (fun _ _ => "addr")
      = { type := TransactionType.CALL_CONTRACT_METHOD
          method := some "transferWithComment"
          params := some ["dst", "2w", "hi"]
          value := none
          contractAddress := some "addr"
          contractAbi := some TRANSFER_COMMENT_METHOD_ABI } ∧
    celoTransferShape "CELO" none "dst" "2" false none (fun s => s ++ "w")
        (fun _ _ => "addr")
      = { type := TransactionType.TRANSFER
          method := none
          params := none
          value := some "2"
          contractAddress := none
          contractAbi := none } :=
  ⟨(celo_memo_decides_shape "hi" "dst" "2" false none (fun s => s ++ "w")
      (fun _ _ => "addr") (by decide)).1,
   (celo_memo_decides_shape "hi" "dst" "2" false none (fun s => s ++ "w")
      (fun _ _ => "addr") (by decide)).2 none (Or.inl rfl)⟩

/-- Gas field of the merged network fee, as a single conditional. -/
theorem getFeeInfoNetworkFee_gas (fee : Option FeeOverride) (quoted : FeeQuote) :
    (getFeeInfoNetworkFee fee quoted).gas
      = if jsNumTruthy (fee.bind FeeOverride.gas) then (fee.bind FeeOverride.gas).getD 0
        else quoted.gas := by
  unfold getFeeInfoNetworkFee
  cases h1 : jsNumTruthy (fee.bind FeeOverride.gas) <;>
    cases h2 : jsNumTruthy (fee.bind FeeOverride.gasPrice) <;> simp [h1, h2]

/-- Gas-price field of the merged network fee, as a single conditional. -/
theorem getFeeInfoNetworkFee_gasPrice (fee : Option FeeOverride) (quoted : FeeQuote) :
    (getFeeInfoNetworkFee fee quoted).gasPrice
      = if jsNumTruthy (fee.bind FeeOverride.gasPrice) then (fee.bind FeeOverride.gasPrice).getD 0
        else quoted.gasPrice := by
  unfold getFeeInfoNetworkFee
  cases h1 : jsNumTruthy (fee.bind FeeOverride.gas) <;>
    cases h2 : jsNumTruthy (fee.bind FeeOverride.gasPrice) <;> simp [h1, h2]

/-- Claim C1 counterexample: a fee override supplying `gas = 0` (a present
field whose value is falsy) is ignored by the truthiness-guarded merge, so
the fee carried into the built Ethereum transfer keeps the quoted gas 21000
instead of the override's 0 — the claim's "the fee carried into the built
transaction equals the override's value for that field" fails here. -/
theorem fee_override_zero_gas_counterexample :
    (createEthereumTransferTransaction ⟨"addr", "pk"⟩ "ETH" "1" "dest" none
        (some { gas := some 0, gasPrice := none }) { gas := 21000, gasPrice := 5 }
        { nonce := 2, sequence := 0, ledgerCurrentIndex := 0 } true).fee.gas = 21000 ∧
    (createEthereumTransferTransaction ⟨"addr", "pk"⟩ "ETH" "1" "dest" none
        (some { gas := some 0, gasPrice := none }) { gas := 21000, gasPrice := 5 }
        { nonce := 2, sequence := 0, ledgerCurrentIndex := 0 } true).fee.gas ≠ 0 := by
  constructor <;> decide

/-- Claim C1 (corrected): in the fee-info orchestration shared by the
account-chain flows, each fee field supplied with a truthy (non-zero) value
in the caller override replaces the quoted field of the fee carried into the
built transaction, each field absent — or supplied with the falsy value 0 —
keeps the quoted value, the two fields are merged independently (never
wholesale), and the merged fee is exactly the fee handed to the builder. -/
theorem fee_override_merges_field_by_field (ov : FeeOverride) (quoted : FeeQuote) :
    (∀ g, ov.gas = some g → g ≠ 0 → (getFeeInfoNetworkFee (some ov) quoted).gas = g) ∧
    ((ov.gas = none ∨ ov.gas = some 0) → (getFeeInfoNetworkFee (some ov) quoted).gas = quoted.gas) ∧
    (∀ p, ov.gasPrice = some p → p ≠ 0 → (getFeeInfoNetworkFee (some ov) quoted).gasPrice = p) ∧
    ((ov.gasPrice = none ∨ ov.gasPrice = some 0) →
      (getFeeInfoNetworkFee (some ov) quoted).gasPrice = quoted.gasPrice) ∧
    (getFeeInfoNetworkFee none quoted = quoted) ∧
    (∀ (wallet : Wallet) (tokenSymbol amount destination : String)
        (contractAddress : Option String) (fee : Option FeeOverride) (info : WalletInfo)
        (testnet : Bool),
      (createEthereumTransferTransaction wallet tokenSymbol amount destination
          contractAddress fee quoted info testnet).fee = getFeeInfoNetworkFee fee quoted) := by
  refine ⟨?_, ?_, ?_, ?_, ?_, ?_⟩
  · intro g hg hg0
    rw [getFeeInfoNetworkFee_gas]
    simp [hg, jsNumTruthy, hg0]
  · rintro (hg | hg) <;> rw [getFeeInfoNetworkFee_gas] <;> simp [hg, jsNumTruthy]
  · intro p hp hp0
    rw [getFeeInfoNetworkFee_gasPrice]
    simp [hp, jsNumTruthy, hp0]
  · rintro (hp | hp) <;> rw [getFeeInfoNetworkFee_gasPrice] <;> simp [hp, jsNumTruthy]
  · rfl
  · intro wallet tokenSymbol amount destination contractAddress fee info testnet
    rfl

/-- Witness for claim C1: at concrete overrides, a non-zero gas override
replaces the quoted gas, an untouched gas price keeps the quote, an absent
gas keeps the quote while a supplied gas price replaces it, and the empty
override keeps the whole quote. -/
theorem fee_override_merges_field_by_field_witness :
    (getFeeInfoNetworkFee (some { gas := some 7, gasPrice := none }) { gas := 1, gasPrice := 2 }).gas = 7 ∧
    (getFeeInfoNetworkFee (some { gas := some 7, gasPrice := none }) { gas := 1, gasPrice := 2 }).gasPrice = 2 ∧
    (getFeeInfoNetworkFee (some { gas := none, gasPrice := some 9 }) { gas := 1, gasPrice := 2 }).gas = 1 ∧
    (getFeeInfoNetworkFee (some { gas := none, gasPrice := some 9 }) { gas := 1, gasPrice := 2 }).gasPrice = 9 ∧
    getFeeInfoNetworkFee none { gas := 1, gasPrice := 2 } = { gas := 1, gasPrice := 2 } := by
  have h1 := fee_override_merges_field_by_field { gas := some 7, gasPrice := none } { gas := 1, gasPrice := 2 }
  have h2 := fee_override_merges_field_by_field { gas := none, gasPrice := some 9 } { gas := 1, gasPrice := 2 }
  exact ⟨h1.1 7 rfl (by decide), h1.2.2.2.1 (Or.inl rfl), h2.2.1 (Or.inl rfl),
    h2.2.2.1 9 rfl (by decide), h1.2.2.2.2.1⟩

/-- Resolution of explicit Bitcoin inputs fails with an
`InvalidParams`-tagged error whenever some input's index is absent from its
resolved transaction's output list. -/
theorem resolveBitcoinInputs_error (getTx : String → BitcoinRawTx) :
    ∀ inputs : List BitcoinInput,
      (∃ i ∈ inputs, ¬ i.index < (getTx i.txHash).vout.length) →
      ∃ e : GenericException, e.errorType = some "InvalidParams" ∧
        resolveBitcoinInputs getTx inputs = .error e := by
  intro inputs
  induction inputs with
  | nil => intro h; simp at h
  | cons i rest ih =>
    intro h
    by_cases hc : i.index < (getTx i.txHash).vout.length
    · obtain ⟨j, hj, hbad⟩ := h
      rcases List.mem_cons.mp hj with rfl | hjr
      · exact absurd hc hbad
      · obtain ⟨e, he, hres⟩ := ih ⟨j, hjr, hbad⟩
        refine ⟨e, he, ?_⟩
        simp [resolveBitcoinInputs, hc, hres]
    · exact ⟨{ message := "Invalid UTXO hash " ++ i.txHash, errorType := some "InvalidParams" },
        rfl, by simp [resolveBitcoinInputs, hc]⟩

/-- Claim C5 (confirmed): a Bitcoin transfer construction from
caller-supplied explicit inputs fails with the `InvalidParams`-classed
`GenericException` when some input's index does not exist in its resolved
transaction's output list, and the outcome is the same error for every
signing primitive — no signed transaction is produced. -/
theorem bitcoin_invalid_input_fails_before_signing (getTx : String → BitcoinRawTx)
    (inputs : List BitcoinInput) (fee : Option String) (estimateValue : String)
    (h : ∃ i ∈ inputs, ¬ i.index < (getTx i.txHash).vout.length) :
    ∃ e : GenericException, e.errorType = some "InvalidParams" ∧
      ∀ build : List ResolvedBitcoinInput → String,
        createBitcoinTransferTransaction getTx build inputs fee estimateValue = .error e := by
  obtain ⟨e, he, hres⟩ := resolveBitcoinInputs_error getTx inputs h
  refine ⟨e, he, fun build => ?_⟩
  simp [createBitcoinTransferTransaction, hres]

/-- Witness for claim C5: a single explicit input whose index 1 is absent
from the resolved transaction's single-entry output list fails the
construction with the `InvalidParams` error for every signing primitive. -/
theorem bitcoin_invalid_input_fails_before_signing_witness :
    ∃ e : GenericException, e.errorType = some "InvalidParams" ∧
      ∀ build : List ResolvedBitcoinInput → String,
        createBitcoinTransferTransaction (fun _ => { hex := "00", blockhash := "bh", vout := ["o0"] })
          build [{ txHash := "h", index := 1 }] none "1" = .error e :=
  bitcoin_invalid_input_fails_before_signing
    (fun _ => { hex := "00", blockhash := "bh", vout := ["o0"] })
    [{ txHash := "h", index := 1 }] none "1"
    ⟨{ txHash := "h", index := 1 }, by simp, by decide⟩

/-- Claim C6 counterexample: a Hathor transfer whose discovered set holds one
unspent output of a non-target token has an empty candidate set after
filtering (the selection keeps nothing), yet the construction succeeds with
an empty input list instead of failing with the `No available UTXOs` error —
the claim's "empty after filtering fails" is false on the transfer flow. -/
theorem hathor_transfer_empty_after_filter_counterexample :
    createHathorTransferTransactionFromWallet ⟨"wa", "pk"⟩ [⟨"h1", 0, "ab", 5⟩]
        [⟨"dst", "3", some "00"⟩] (fun _ _ => ⟨5, 0⟩) false
      = .ok { inputs := [], outputs := [⟨"dst", "3", "00"⟩], tokens := ["00"],
              changeAddress := "wa", testnet := false } ∧
    hathorTransferSelect ["00"] "pk" (fun _ _ => ⟨5, 0⟩) [⟨"h1", 0, "ab", 5⟩] = [] := by
  constructor <;> rfl

/-- Claim C6 (corrected): the `No available UTXOs` failure is raised exactly
when the discovered unspent-output set is empty before filtering (transfer
flow), respectively when the token filter leaves nothing (token-operation
flow, before the per-output authority selection); a candidate set that only
becomes empty during the later selection builds a transaction with an empty
input list instead of failing. -/
theorem hathor_no_available_utxos_before_selection (wallet : Wallet)
    (utxos : List UTXO) (outputs : List HathorOutputSpec)
    (getOutput : String → Nat → HathorTxOutput) (testnet : Bool)
    (type : TransactionType) (tokenUid : String) (amountHTRUnit : Nat) :
    (utxos = [] →
      createHathorTransferTransactionFromWallet wallet utxos outputs getOutput testnet
        = .error { message := "No available UTXOs", errorType := none }) ∧
    (utxos ≠ [] →
      ∃ b, createHathorTransferTransactionFromWallet wallet utxos outputs getOutput testnet
        = .ok b) ∧
    (hathorTokenCandidates type tokenUid utxos = [] →
      createHathorTokenTransactionFromWallet type tokenUid amountHTRUnit wallet utxos getOutput
        = .error { message := "No available UTXOs" }) ∧
    (hathorTokenCandidates type tokenUid utxos ≠ [] →
      ∃ r, createHathorTokenTransactionFromWallet type tokenUid amountHTRUnit wallet utxos getOutput
        = .ok r) := by
  refine ⟨?_, ?_, ?_, ?_⟩
  · intro h
    subst h
    rfl
  · intro h
    have hne : ¬ utxos.length = 0 := by
      simpa [List.length_eq_zero] using h
    exact ⟨_, by unfold createHathorTransferTransactionFromWallet; rw [if_neg hne]⟩
  · intro h
    unfold createHathorTokenTransactionFromWallet
    simp [h]
  · intro h
    have hne : ¬ (hathorTokenCandidates type tokenUid utxos).length = 0 := by
      simpa [List.length_eq_zero] using h
    exact ⟨_, by unfold createHathorTokenTransactionFromWallet; rw [if_neg hne]⟩

/-- Witness for claim C6: an empty discovered set fails the transfer flow, a
nonempty one succeeds; an empty token-filtered set fails the token flow, a
nonempty one succeeds — all at concrete inputs. -/
theorem hathor_no_available_utxos_before_selection_witness :
    (createHathorTransferTransactionFromWallet ⟨"wa", "pk"⟩ [] [] (fun _ _ => ⟨1, 0⟩) false
      = .error { message := "No available UTXOs", errorType := none }) ∧
    (∃ b, createHathorTransferTransactionFromWallet ⟨"wa", "pk"⟩ [⟨"h", 0, "00", 1⟩] []
      (fun _ _ => ⟨1, 0⟩) false = .ok b) ∧
    (createHathorTokenTransactionFromWallet TransactionType.HATHOR_TOKEN_MELT "tk" 100
      ⟨"wa", "pk"⟩ [] (fun _ _ => ⟨1, 0⟩) = .error { message := "No available UTXOs" }) ∧
    (∃ r, createHathorTokenTransactionFromWallet TransactionType.HATHOR_TOKEN_MELT "tk" 100
      ⟨"wa", "pk"⟩ [⟨"h", 0, "tk", 1⟩] (fun _ _ => ⟨1, 0⟩) = .ok r) := by
  have hempty := hathor_no_available_utxos_before_selection ⟨"wa", "pk"⟩ [] []
    (fun _ _ => ⟨1, 0⟩) false TransactionType.HATHOR_TOKEN_MELT "tk" 100
  have htransfer := hathor_no_available_utxos_before_selection ⟨"wa", "pk"⟩ [⟨"h", 0, "00", 1⟩] []
    (fun _ _ => ⟨1, 0⟩) false TransactionType.HATHOR_TOKEN_MELT "tk" 100
  have htoken := hathor_no_available_utxos_before_selection ⟨"wa", "pk"⟩ [⟨"h", 0, "tk", 1⟩] []
    (fun _ _ => ⟨1, 0⟩) false TransactionType.HATHOR_TOKEN_MELT "tk" 100
  exact ⟨hempty.1 rfl, htransfer.2.1 (by decide), hempty.2.2.1 rfl,
    htoken.2.2.2 (by decide)⟩

/-- A melt-authority output: authority marker `token_data = 129` with the
exact sentinel value 2. -/
def isMeltAuthority (o : HathorTxOutput) : Prop :=
  o.token_data = 129 ∧ o.value = 2

/-- An ordinary value output carrying a non-native custom token
(`token_data` outside the marker set `{0, 129}`). -/
def isOrdinaryTokenOutput (o : HathorTxOutput) : Prop :=
  ¬(o.token_data = 0 ∨ o.token_data = 129)

instance (o : HathorTxOutput) : Decidable (isMeltAuthority o) :=
  inferInstanceAs (Decidable (o.token_data = 129 ∧ o.value = 2))

instance (o : HathorTxOutput) : Decidable (isOrdinaryTokenOutput o) :=
  inferInstanceAs (Decidable (¬(o.token_data = 0 ∨ o.token_data = 129)))

/-- The melt branch of the selection step, phrased through the two output
classifications. -/
theorem hathorTokenSelectStep_melt_eq (amountHTRUnit : Nat) (privateKey : String)
    (getOutput : String → Nat → HathorTxOutput) (st : Nat × List HathorSelInput) (u : UTXO) :
    hathorTokenSelectStep TransactionType.HATHOR_TOKEN_MELT amountHTRUnit privateKey getOutput st u
      = if isOrdinaryTokenOutput (getOutput u.txHash u.index) then
          (if st.1 < amountHTRUnit then
            (st.1 + (getOutput u.txHash u.index).value,
              st.2 ++ [{ txHash := u.txHash, index := u.index, privateKey := privateKey }])
          else st)
        else if isMeltAuthority (getOutput u.txHash u.index) then
          (st.1, st.2 ++ [{ txHash := u.txHash, index := u.index, privateKey := privateKey }])
        else st :=
  rfl

/-- Each melt selection step only appends to the selected list and never
decreases the accumulated sum. -/
theorem hathorTokenSelectStep_melt_extends (amountHTRUnit : Nat) (privateKey : String)
    (getOutput : String → Nat → HathorTxOutput) (st : Nat × List HathorSelInput) (u : UTXO) :
    ∃ t, (hathorTokenSelectStep TransactionType.HATHOR_TOKEN_MELT amountHTRUnit privateKey
            getOutput st u).2 = st.2 ++ t ∧
      st.1 ≤ (hathorTokenSelectStep TransactionType.HATHOR_TOKEN_MELT amountHTRUnit privateKey
            getOutput st u).1 := by
  rw [hathorTokenSelectStep_melt_eq]
  split_ifs with h1 h2 h3
  · exact ⟨[{ txHash := u.txHash, index := u.index, privateKey := privateKey }], rfl,
      Nat.le_add_right _ _⟩
  · exact ⟨[], by simp, le_refl _⟩
  · exact ⟨[{ txHash := u.txHash, index := u.index, privateKey := privateKey }], rfl, le_refl _⟩
  · exact ⟨[], by simp, le_refl _⟩

/-- The melt selection loop only appends to the selected list and never
decreases the accumulated sum. -/
theorem hathorTokenSelectLoop_melt_extends (amountHTRUnit : Nat) (privateKey : String)
    (getOutput : String → Nat → HathorTxOutput) :
    ∀ (l : List UTXO) (st : Nat × List HathorSelInput),
      ∃ t, (hathorTokenSelectLoop TransactionType.HATHOR_TOKEN_MELT amountHTRUnit privateKey
              getOutput l st).2 = st.2 ++ t ∧
        st.1 ≤ (hathorTokenSelectLoop TransactionType.HATHOR_TOKEN_MELT amountHTRUnit privateKey
              getOutput l st).1 := by
  intro l
  induction l with
  | nil => exact fun st => ⟨[], by simp [hathorTokenSelectLoop], le_refl _⟩
  | cons u rest ih =>
    intro st
    obtain ⟨t0, ht0, hle0⟩ :=
      hathorTokenSelectStep_melt_extends amountHTRUnit privateKey getOutput st u
    obtain ⟨t1, ht1, hle1⟩ :=
      ih (hathorTokenSelectStep TransactionType.HATHOR_TOKEN_MELT amountHTRUnit privateKey getOutput st u)
    refine ⟨t0 ++ t1, ?_, le_trans hle0 hle1⟩
    simp only [hathorTokenSelectLoop]
    rw [ht1, ht0, List.append_assoc]

/-- Every melt-authority candidate encountered by the loop ends up in the
selected list, whatever the accumulated state. -/
theorem hathorTokenSelectLoop_melt_authority_mem (amountHTRUnit : Nat) (privateKey : String)
    (getOutput : String → Nat → HathorTxOutput) :
    ∀ (l : List UTXO) (st : Nat × List HathorSelInput) (u : UTXO), u ∈ l →
      isMeltAuthority (getOutput u.txHash u.index) →
      ({ txHash := u.txHash, index := u.index, privateKey := privateKey } : HathorSelInput)
        ∈ (hathorTokenSelectLoop TransactionType.HATHOR_TOKEN_MELT amountHTRUnit privateKey
            getOutput l st).2 := by
  intro l
  induction l with
  | nil => intro st u hu; exact absurd hu (List.not_mem_nil u)
  | cons v rest ih =>
    intro st u hu hauth
    rcases List.mem_cons.mp hu with rfl | hur
    · have hstep : hathorTokenSelectStep TransactionType.HATHOR_TOKEN_MELT amountHTRUnit
          privateKey getOutput st u
          = (st.1, st.2 ++ [{ txHash := u.txHash, index := u.index, privateKey := privateKey }]) := by
        rw [hathorTokenSelectStep_melt_eq]
        have hnotord : ¬ isOrdinaryTokenOutput (getOutput u.txHash u.index) := by
          intro hord
          exact hord (Or.inr hauth.1)
        rw [if_neg hnotord, if_pos hauth]
      obtain ⟨t, ht, -⟩ := hathorTokenSelectLoop_melt_extends amountHTRUnit privateKey getOutput
        rest (hathorTokenSelectStep TransactionType.HATHOR_TOKEN_MELT amountHTRUnit privateKey
          getOutput st u)
      simp only [hathorTokenSelectLoop]
      rw [ht, hstep]
      simp
    · exact ih _ u hur hauth

/-- Every input the melt loop selects beyond its initial state comes from a
candidate that is an ordinary token output or a melt-authority output. -/
theorem hathorTokenSelectLoop_melt_provenance (amountHTRUnit : Nat) (privateKey : String)
    (getOutput : String → Nat → HathorTxOutput) :
    ∀ (l : List UTXO) (st : Nat × List HathorSelInput) (x : HathorSelInput),
      x ∈ (hathorTokenSelectLoop TransactionType.HATHOR_TOKEN_MELT amountHTRUnit privateKey
            getOutput l st).2 →
      x ∈ st.2 ∨ ∃ u ∈ l,
        x = { txHash := u.txHash, index := u.index, privateKey := privateKey } ∧
        (isOrdinaryTokenOutput (getOutput u.txHash u.index) ∨
          isMeltAuthority (getOutput u.txHash u.index)) := by
  intro l
  induction l with
  | nil => intro st x hx; exact Or.inl (by simpa [hathorTokenSelectLoop] using hx)
  | cons v rest ih =>
    intro st x hx
    simp only [hathorTokenSelectLoop] at hx
    rcases ih _ x hx with hstep | ⟨u, hu, hxu, hclass⟩
    · rw [hathorTokenSelectStep_melt_eq] at hstep
      by_cases h1 : isOrdinaryTokenOutput (getOutput v.txHash v.index)
      · rw [if_pos h1] at hstep
        by_cases h2 : st.1 < amountHTRUnit
        · rw [if_pos h2] at hstep
          rcases List.mem_append.mp hstep with hin | hv
          · exact Or.inl hin
          · exact Or.inr ⟨v, List.mem_cons_self v rest, List.mem_singleton.mp hv, Or.inl h1⟩
        · rw [if_neg h2] at hstep
          exact Or.inl hstep
      · rw [if_neg h1] at hstep
        by_cases h3 : isMeltAuthority (getOutput v.txHash v.index)
        · rw [if_pos h3] at hstep
          rcases List.mem_append.mp hstep with hin | hv
          · exact Or.inl hin
          · exact Or.inr ⟨v, List.mem_cons_self v rest, List.mem_singleton.mp hv, Or.inr h3⟩
        · rw [if_neg h3] at hstep
          exact Or.inl hstep
    · exact Or.inr ⟨u, List.mem_cons_of_mem v hu, hxu, hclass⟩

/-- When the melt loop finishes with an accumulated sum still below the
requirement, every ordinary candidate was selected. -/
theorem hathorTokenSelectLoop_melt_sum_lt (amountHTRUnit : Nat) (privateKey : String)
    (getOutput : String → Nat → HathorTxOutput) :
    ∀ (l : List UTXO) (st : Nat × List HathorSelInput),
      (hathorTokenSelectLoop TransactionType.HATHOR_TOKEN_MELT amountHTRUnit privateKey
          getOutput l st).1 < amountHTRUnit →
      ∀ u ∈ l, isOrdinaryTokenOutput (getOutput u.txHash u.index) →
        ({ txHash := u.txHash, index := u.index, privateKey := privateKey } : HathorSelInput)
          ∈ (hathorTokenSelectLoop TransactionType.HATHOR_TOKEN_MELT amountHTRUnit privateKey
              getOutput l st).2 := by
  intro l
  induction l with
  | nil => intro st _ u hu; exact absurd hu (List.not_mem_nil u)
  | cons v rest ih =>
    intro st hlt u hu hord
    simp only [hathorTokenSelectLoop] at hlt ⊢
    rcases List.mem_cons.mp hu with rfl | hur
    · have hstlt : st.1 < amountHTRUnit := by
        obtain ⟨t0, -, hle0⟩ :=
          hathorTokenSelectStep_melt_extends amountHTRUnit privateKey getOutput st u
        obtain ⟨t1, -, hle1⟩ := hathorTokenSelectLoop_melt_extends amountHTRUnit privateKey
          getOutput rest (hathorTokenSelectStep TransactionType.HATHOR_TOKEN_MELT amountHTRUnit
            privateKey getOutput st u)
        exact lt_of_le_of_lt (le_trans hle0 hle1) hlt
      have hstep : hathorTokenSelectStep TransactionType.HATHOR_TOKEN_MELT amountHTRUnit
          privateKey getOutput st u
          = (st.1 + (getOutput u.txHash u.index).value,
             st.2 ++ [{ txHash := u.txHash, index := u.index, privateKey := privateKey }]) := by
        rw [hathorTokenSelectStep_melt_eq, if_pos hord, if_pos hstlt]
      obtain ⟨t, ht, -⟩ := hathorTokenSelectLoop_melt_extends amountHTRUnit privateKey getOutput
        rest (hathorTokenSelectStep TransactionType.HATHOR_TOKEN_MELT amountHTRUnit privateKey
          getOutput st u)
      rw [ht, hstep]
      simp
    · exact ih _ hlt u hur hord

/-- Claim C2 counterexample: a melt with one ordinary target-token output
(value 5) discovered before one melt-authority output (marker 129, sentinel
value 2) selects BOTH outputs — the ordinary value output is not ignored even
though a single authority-marked output of the required sentinel value is
available, so the claimed either/or selection with "only that one output" is
false at this input. -/
theorem hathor_melt_selects_ordinary_alongside_authority :
    createHathorTokenTransactionFromWallet TransactionType.HATHOR_TOKEN_MELT "tk" 300
        ⟨"wa", "pk"⟩ [⟨"h1", 0, "tk", 5⟩, ⟨"h2", 0, "tk", 2⟩]
        (fun h _ => if h = "h1" then ⟨5, 1⟩ else ⟨2, 129⟩)
      = .ok { type := TransactionType.HATHOR_TOKEN_MELT
              inputs := [⟨"h1", 0, "pk"⟩, ⟨"h2", 0, "pk"⟩]
              tokenUid := "tk"
              inputSum := 5 } ∧
    isMeltAuthority ((fun h (_ : Nat) =>
        if h = "h1" then (⟨5, 1⟩ : HathorTxOutput) else ⟨2, 129⟩) "h2" 0) ∧
    ([⟨"h1", 0, "pk"⟩, ⟨"h2", 0, "pk"⟩] : List HathorSelInput) ≠ [⟨"h2", 0, "pk"⟩] := by
  refine ⟨rfl, by decide, by decide⟩

/-- Claim C2 (corrected): in a Hathor melt from a wallet, the selection over
the token-filtered candidates (taken in discovery order, no re-sorting)
accumulates ordinary value outputs carrying the target token while the
accumulated value is below the requested amount in smallest units, AND
additionally accepts every melt-authority output (marker `token_data = 129`
with exact sentinel value 2) without regard to amount; the two modes are not
exclusive, so authority outputs never suppress the ordinary accumulation:
every selected input is of one of these two kinds, every available
melt-authority candidate is selected, and the accumulation only stops short
of the requirement when the ordinary candidates are exhausted. -/
theorem hathor_melt_selection_not_exclusive (tokenUid : String) (amountHTRUnit : Nat)
    (wallet : Wallet) (utxos : List UTXO) (getOutput : String → Nat → HathorTxOutput)
    (r : HathorTokenBuildParams)
    (hr : createHathorTokenTransactionFromWallet TransactionType.HATHOR_TOKEN_MELT tokenUid
        amountHTRUnit wallet utxos getOutput = .ok r) :
    (∀ u ∈ hathorTokenCandidates TransactionType.HATHOR_TOKEN_MELT tokenUid utxos,
      isMeltAuthority (getOutput u.txHash u.index) →
      ({ txHash := u.txHash, index := u.index, privateKey := wallet.privateKey } : HathorSelInput)
        ∈ r.inputs) ∧
    (∀ x ∈ r.inputs,
      ∃ u ∈ hathorTokenCandidates TransactionType.HATHOR_TOKEN_MELT tokenUid utxos,
        x = { txHash := u.txHash, index := u.index, privateKey := wallet.privateKey } ∧
        (isOrdinaryTokenOutput (getOutput u.txHash u.index) ∨
          isMeltAuthority (getOutput u.txHash u.index))) ∧
    (amountHTRUnit ≤ r.inputSum ∨
      ∀ u ∈ hathorTokenCandidates TransactionType.HATHOR_TOKEN_MELT tokenUid utxos,
        isOrdinaryTokenOutput (getOutput u.txHash u.index) →
        ({ txHash := u.txHash, index := u.index, privateKey := wallet.privateKey } : HathorSelInput)
          ∈ r.inputs) := by
  unfold createHathorTokenTransactionFromWallet at hr
  by_cases hlen : (hathorTokenCandidates TransactionType.HATHOR_TOKEN_MELT tokenUid utxos).length = 0
  · rw [if_pos hlen] at hr
    exact absurd hr (by simp)
  · rw [if_neg hlen] at hr
    injection hr with h
    subst h
    refine ⟨?_, ?_, ?_⟩
    · intro u hu hauth
      exact hathorTokenSelectLoop_melt_authority_mem amountHTRUnit wallet.privateKey getOutput
        _ (0, []) u hu hauth
    · intro x hx
      rcases hathorTokenSelectLoop_melt_provenance amountHTRUnit wallet.privateKey getOutput
          _ (0, []) x hx with hin | h
      · exact absurd hin (List.not_mem_nil x)
      · exact h
    · by_cases hlt : (hathorTokenSelectLoop TransactionType.HATHOR_TOKEN_MELT amountHTRUnit
          wallet.privateKey getOutput
          (hathorTokenCandidates TransactionType.HATHOR_TOKEN_MELT tokenUid utxos) (0, [])).1
          < amountHTRUnit
      · exact Or.inr (fun u hu hord =>
          hathorTokenSelectLoop_melt_sum_lt amountHTRUnit wallet.privateKey getOutput
            _ (0, []) hlt u hu hord)
      · exact Or.inl (Nat.le_of_not_lt hlt)

/-- Witness for claim C2: at the concrete two-candidate melt input, every
melt-authority candidate is selected, every selected input stems from an
ordinary or authority candidate, and the accumulation property holds. -/
theorem hathor_melt_selection_not_exclusive_witness :
    (∀ u ∈ hathorTokenCandidates TransactionType.HATHOR_TOKEN_MELT "tk"
        [⟨"h1", 0, "tk", 5⟩, ⟨"h2", 0, "tk", 2⟩],
      isMeltAuthority ((fun h (_ : Nat) =>
          if h = "h1" then (⟨5, 1⟩ : HathorTxOutput) else ⟨2, 129⟩) u.txHash u.index) →
      ({ txHash := u.txHash, index := u.index, privateKey := "pk" } : HathorSelInput)
        ∈ ([⟨"h1", 0, "pk"⟩, ⟨"h2", 0, "pk"⟩] : List HathorSelInput)) ∧
    (∀ x ∈ ([⟨"h1", 0, "pk"⟩, ⟨"h2", 0, "pk"⟩] : List HathorSelInput),
      ∃ u ∈ hathorTokenCandidates TransactionType.HATHOR_TOKEN_MELT "tk"
          [⟨"h1", 0, "tk", 5⟩, ⟨"h2", 0, "tk", 2⟩],
        x = { txHash := u.txHash, index := u.index, privateKey := "pk" } ∧
        (isOrdinaryTokenOutput ((fun h (_ : Nat) =>
            if h = "h1" then (⟨5, 1⟩ : HathorTxOutput) else ⟨2, 129⟩) u.txHash u.index) ∨
          isMeltAuthority ((fun h (_ : Nat) =>
            if h = "h1" then (⟨5, 1⟩ : HathorTxOutput) else ⟨2, 129⟩) u.txHash u.index))) ∧
    ((300 : Nat) ≤ 5 ∨
      ∀ u ∈ hathorTokenCandidates TransactionType.HATHOR_TOKEN_MELT "tk"
          [⟨"h1", 0, "tk", 5⟩, ⟨"h2", 0, "tk", 2⟩],
        isOrdinaryTokenOutput ((fun h (_ : Nat) =>
            if h = "h1" then (⟨5, 1⟩ : HathorTxOutput) else ⟨2, 129⟩) u.txHash u.index) →
        ({ txHash := u.txHash, index := u.index, privateKey := "pk" } : HathorSelInput)
          ∈ ([⟨"h1", 0, "pk"⟩, ⟨"h2", 0, "pk"⟩] : List HathorSelInput)) :=
  hathor_melt_selection_not_exclusive "tk" 300 ⟨"wa", "pk"⟩
    [⟨"h1", 0, "tk", 5⟩, ⟨"h2", 0, "tk", 2⟩]
    (fun h _ => if h = "h1" then ⟨5, 1⟩ else ⟨2, 129⟩)
    { type := TransactionType.HATHOR_TOKEN_MELT
      inputs := [⟨"h1", 0, "pk"⟩, ⟨"h2", 0, "pk"⟩]
      tokenUid := "tk"
      inputSum := 5 }
    rfl

/-- Successful from-wallet signing produces one signature per payload, each
declared for the wallet address and made with the wallet key. -/
theorem cardanoSignaturesFromWallet_ok (walletAddress spendingPrivateKey : String)
    (makeVkeyWitness : String → String → String) :
    ∀ (payloads : List SigningPayload) (sigs : List CardanoSignature),
      cardanoSignaturesFromWallet walletAddress spendingPrivateKey makeVkeyWitness payloads
        = .ok sigs →
      sigs.length = payloads.length ∧
      ∀ s ∈ sigs, s.signing_payload.account_identifier.address = walletAddress ∧
        s.hex_bytes = makeVkeyWitness spendingPrivateKey s.signing_payload.hex_bytes := by
  intro payloads
  induction payloads with
  | nil =>
    intro sigs h
    simp only [cardanoSignaturesFromWallet] at h
    injection h with h
    subst h
    exact ⟨rfl, by simp⟩
  | cons p rest ih =>
    intro sigs h
    simp only [cardanoSignaturesFromWallet] at h
    by_cases haddr : p.account_identifier.address = walletAddress
    · rw [if_pos haddr] at h
      cases hrec : cardanoSignaturesFromWallet walletAddress spendingPrivateKey makeVkeyWitness rest with
      | ok sigs' =>
        rw [hrec] at h
        injection h with h
        subst h
        obtain ⟨hlen, hall⟩ := ih sigs' hrec
        refine ⟨by simp [hlen], ?_⟩
        intro s hs
        rcases List.mem_cons.mp hs with rfl | hs'
        · exact ⟨haddr, rfl⟩
        · exact hall s hs'
      | error e =>
        rw [hrec] at h
        exact absurd h (by simp)
    · rw [if_neg haddr] at h
      exact absurd h (by simp)

/-- A from-wallet payload whose account identifier is not the wallet address
aborts the signing with an error. -/
theorem cardanoSignaturesFromWallet_mismatch (walletAddress spendingPrivateKey : String)
    (makeVkeyWitness : String → String → String) :
    ∀ payloads : List SigningPayload,
      (∃ p ∈ payloads, p.account_identifier.address ≠ walletAddress) →
      ∃ e, cardanoSignaturesFromWallet walletAddress spendingPrivateKey makeVkeyWitness payloads
        = .error e := by
  intro payloads
  induction payloads with
  | nil => intro h; simp at h
  | cons p rest ih =>
    intro h
    by_cases haddr : p.account_identifier.address = walletAddress
    · obtain ⟨q, hq, hne⟩ := h
      rcases List.mem_cons.mp hq with rfl | hqr
      · exact absurd haddr hne
      · obtain ⟨e, herr⟩ := ih ⟨q, hqr, hne⟩
        refine ⟨e, ?_⟩
        simp only [cardanoSignaturesFromWallet]
        rw [if_pos haddr, herr]
    · refine ⟨"Cannot read properties of undefined", ?_⟩
      simp only [cardanoSignaturesFromWallet]
      rw [if_neg haddr]

/-- Successful from-UTXO signing produces one signature per payload, each
made with the key the mapper holds for the payload's account identifier. -/
theorem cardanoSignaturesFromUTXO_ok (keyAddressMapper : List (String × String))
    (makeVkeyWitness : String → String → String) :
    ∀ (payloads : List SigningPayload) (sigs : List CardanoSignature),
      cardanoSignaturesFromUTXO keyAddressMapper makeVkeyWitness payloads = .ok sigs →
      sigs.length = payloads.length ∧
      ∀ s ∈ sigs, ∃ k,
        keyAddressMapper.lookup s.signing_payload.account_identifier.address = some k ∧
        s.hex_bytes = makeVkeyWitness k s.signing_payload.hex_bytes := by
  intro payloads
  induction payloads with
  | nil =>
    intro sigs h
    simp only [cardanoSignaturesFromUTXO] at h
    injection h with h
    subst h
    exact ⟨rfl, by simp⟩
  | cons p rest ih =>
    intro sigs h
    simp only [cardanoSignaturesFromUTXO] at h
    cases hlook : keyAddressMapper.lookup p.account_identifier.address with
    | some k =>
      rw [hlook] at h
      cases hrec : cardanoSignaturesFromUTXO keyAddressMapper makeVkeyWitness rest with
      | ok sigs' =>
        rw [hrec] at h
        injection h with h
        subst h
        obtain ⟨hlen, hall⟩ := ih sigs' hrec
        refine ⟨by simp [hlen], ?_⟩
        intro s hs
        rcases List.mem_cons.mp hs with rfl | hs'
        · exact ⟨k, hlook, rfl⟩
        · exact hall s hs'
      | error e =>
        rw [hrec] at h
        exact absurd h (by simp)
    | none =>
      rw [hlook] at h
      exact absurd h (by simp)

/-- A from-UTXO payload whose account identifier has no mapper entry aborts
the signing with an error. -/
theorem cardanoSignaturesFromUTXO_mismatch (keyAddressMapper : List (String × String))
    (makeVkeyWitness : String → String → String) :
    ∀ payloads : List SigningPayload,
      (∃ p ∈ payloads, keyAddressMapper.lookup p.account_identifier.address = none) →
      ∃ e, cardanoSignaturesFromUTXO keyAddressMapper makeVkeyWitness payloads = .error e := by
  intro payloads
  induction payloads with
  | nil => intro h; simp at h
  | cons p rest ih =>
    intro h
    cases hlook : keyAddressMapper.lookup p.account_identifier.address with
    | some k =>
      obtain ⟨q, hq, hnone⟩ := h
      rcases List.mem_cons.mp hq with rfl | hqr
      · rw [hlook] at hnone; exact absurd hnone (by simp)
      · obtain ⟨e, herr⟩ := ih ⟨q, hqr, hnone⟩
        refine ⟨e, ?_⟩
        simp only [cardanoSignaturesFromUTXO]
        rw [hlook, herr]
    | none =>
      refine ⟨"Cannot read properties of undefined", ?_⟩
      simp only [cardanoSignaturesFromUTXO]
      rw [hlook]

/-- Claim C4 (confirmed): in both Cardano multi-phase signing constructions,
a successful signing pass submits exactly one signature per signing payload
to the combine step, each signature is produced with the key held for the
exact account identifier embedded in its payload (the wallet key for the
from-wallet flow, the mapper entry for the from-UTXO flow), and a payload
whose account identifier matches no held key aborts the construction with an
error instead of signing. -/
theorem cardano_signatures_match_payloads :
    (∀ (walletAddress spendingPrivateKey : String)
        (makeVkeyWitness : String → String → String)
        (payloads : List SigningPayload) (sigs : List CardanoSignature),
      cardanoSignaturesFromWallet walletAddress spendingPrivateKey makeVkeyWitness payloads
        = .ok sigs →
      sigs.length = payloads.length ∧
      ∀ s ∈ sigs, s.signing_payload.account_identifier.address = walletAddress ∧
        s.hex_bytes = makeVkeyWitness spendingPrivateKey s.signing_payload.hex_bytes) ∧
    (∀ (walletAddress spendingPrivateKey : String)
        (makeVkeyWitness : String → String → String) (payloads : List SigningPayload),
      (∃ p ∈ payloads, p.account_identifier.address ≠ walletAddress) →
      ∃ e, cardanoSignaturesFromWallet walletAddress spendingPrivateKey makeVkeyWitness payloads
        = .error e) ∧
    (∀ (keyAddressMapper : List (String × String))
        (makeVkeyWitness : String → String → String)
        (payloads : List SigningPayload) (sigs : List CardanoSignature),
      cardanoSignaturesFromUTXO keyAddressMapper makeVkeyWitness payloads = .ok sigs →
      sigs.length = payloads.length ∧
      ∀ s ∈ sigs, ∃ k,
        keyAddressMapper.lookup s.signing_payload.account_identifier.address = some k ∧
        s.hex_bytes = makeVkeyWitness k s.signing_payload.hex_bytes) ∧
    (∀ (keyAddressMapper : List (String × String))
        (makeVkeyWitness : String → String → String) (payloads : List SigningPayload),
      (∃ p ∈ payloads, keyAddressMapper.lookup p.account_identifier.address = none) →
      ∃ e, cardanoSignaturesFromUTXO keyAddressMapper makeVkeyWitness payloads = .error e) :=
  ⟨fun wa spk w ps sigs h => cardanoSignaturesFromWallet_ok wa spk w ps sigs h,
   fun wa spk w ps h => cardanoSignaturesFromWallet_mismatch wa spk w ps h,
   fun m w ps sigs h => cardanoSignaturesFromUTXO_ok m w ps sigs h,
   fun m w ps h => cardanoSignaturesFromUTXO_mismatch m w ps h⟩

/-- Witness for claim C4: at concrete payload lists, the from-wallet flow
returns one matching signature for one payload, a foreign-address payload
aborts it, the from-UTXO flow signs with the looked-up key, and a payload
with no mapper entry aborts it. -/
theorem cardano_signatures_match_payloads_witness :
    ([(⟨⟨⟨"a"⟩, "p"⟩, ⟨jsSlice "k" 128 192, "edwards25519"⟩, "ed25519", "kp"⟩ : CardanoSignature)].length
        = [(⟨⟨"a"⟩, "p"⟩ : SigningPayload)].length ∧
      ∀ s ∈ [(⟨⟨⟨"a"⟩, "p"⟩, ⟨jsSlice "k" 128 192, "edwards25519"⟩, "ed25519", "kp"⟩ : CardanoSignature)],
        s.signing_payload.account_identifier.address = "a" ∧
        s.hex_bytes = (fun k m => k ++ m) "k" s.signing_payload.hex_bytes) ∧
    (∃ e, cardanoSignaturesFromWallet "a" "k" (fun k m => k ++ m)
        [⟨⟨"b"⟩, "p"⟩] = .error e) ∧
    ([(⟨⟨⟨"a"⟩, "p"⟩, ⟨jsSlice "k" 128 192, "edwards25519"⟩, "ed25519", "kp"⟩ : CardanoSignature)].length
        = [(⟨⟨"a"⟩, "p"⟩ : SigningPayload)].length ∧
      ∀ s ∈ [(⟨⟨⟨"a"⟩, "p"⟩, ⟨jsSlice "k" 128 192, "edwards25519"⟩, "ed25519", "kp"⟩ : CardanoSignature)],
        ∃ k, ([("a", "k")] : List (String × String)).lookup
            s.signing_payload.account_identifier.address = some k ∧
          s.hex_bytes = (fun k m => k ++ m) k s.signing_payload.hex_bytes) ∧
    (∃ e, cardanoSignaturesFromUTXO [] (fun k m => k ++ m)
        [⟨⟨"a"⟩, "p"⟩] = .error e) :=
  ⟨cardano_signatures_match_payloads.1 "a" "k" (fun k m => k ++ m)
      [⟨⟨"a"⟩, "p"⟩] _ rfl,
   cardano_signatures_match_payloads.2.1 "a" "k" (fun k m => k ++ m)
      [⟨⟨"b"⟩, "p"⟩]
      ⟨⟨⟨"b"⟩, "p"⟩, by simp, by decide⟩,
   cardano_signatures_match_payloads.2.2.1 [("a", "k")] (fun k m => k ++ m)
      [⟨⟨"a"⟩, "p"⟩] _ rfl,
   cardano_signatures_match_payloads.2.2.2 [] (fun k m => k ++ m)
      [⟨⟨"a"⟩, "p"⟩]
      ⟨⟨⟨"a"⟩, "p"⟩, by simp, rfl⟩⟩

end Cryptum
